import Mathlib

/-!
Verification of the Bluesky automation service (`main.py`): the scraper's
pagination and deduplication algorithms and the follower's bulk-follow
protocol, embedded shallowly in Lean. Remote-service behaviour (the
`atproto` client) is modelled by oracles: a stream of search responses per
keyword for the scraper, and a stream of follow-call outcomes for the
follower. Wall-clock timestamps are likewise supplied by oracles. Python
`None`-able values are `Option`s; a dictionary key that may be absent is an
`Option` field whose `none` means the key is missing.
-/

/-- Python truthiness of an optional string: `None` and `""` are falsy. -/
def truthy : Option String → Bool
  | none => false
  | some s => !(s == "")

/-- Python `a or b` on optional strings: `a` if truthy, else `b`. -/
def pyOr (a b : Option String) : Option String :=
  if truthy a then a else b

/-- Predicate `leadsWith n h` : the list `n` is an initial segment of `h`
(models Python string prefix testing used to define substring search). -/
def leadsWith : List Char → List Char → Bool
  | [], _ => true
  | _ :: _, [] => false
  | a :: n, b :: h => a == b && leadsWith n h

/-- Predicate `sublistAt n h` : `n` occurs contiguously somewhere inside `h`
(models Python's `needle in haystack` on strings). -/
def sublistAt : List Char → List Char → Bool
  | n, [] => n.isEmpty
  | n, c :: t => leadsWith n (c :: t) || sublistAt n t

/-- Python `needle in haystack` for strings. -/
def containsSub (needle hay : String) : Bool :=
  sublistAt needle.data hay.data

/-- Python `str.lower()` (character-wise, faithful on ASCII). -/
def lowerStr (s : String) : String :=
  String.mk (s.data.map Char.toLower)

theorem leadsWith_iff (n h : List Char) :
    leadsWith n h = true ↔ ∃ t, h = n ++ t := by
  induction n generalizing h with
  | nil => simp [leadsWith]
  | cons a n ih =>
    cases h with
    | nil => simp [leadsWith]
    | cons b h' =>
      simp only [leadsWith, Bool.and_eq_true, beq_iff_eq, ih, List.cons_append,
        List.cons.injEq]
      constructor
      · rintro ⟨rfl, t, rfl⟩; exact ⟨t, rfl, rfl⟩
      · rintro ⟨t, rfl, rfl⟩; exact ⟨rfl, t, rfl⟩

theorem sublistAt_iff (n h : List Char) :
    sublistAt n h = true ↔ ∃ s t, h = s ++ n ++ t := by
  induction h with
  | nil =>
    simp only [sublistAt, List.isEmpty_iff]
    constructor
    · rintro rfl; exact ⟨[], [], rfl⟩
    · rintro ⟨s, t, hst⟩
      rcases List.append_eq_nil.mp hst.symm with ⟨hsn, ht⟩
      exact (List.append_eq_nil.mp hsn).2
  | cons b h' ih =>
    simp only [sublistAt, Bool.or_eq_true, leadsWith_iff, ih]
    constructor
    · rintro (⟨t, ht⟩ | ⟨s, t, rfl⟩)
      · exact ⟨[], t, by simpa using ht⟩
      · exact ⟨b :: s, t, rfl⟩
    · rintro ⟨s, t, hst⟩
      cases s with
      | nil => exact Or.inl ⟨t, by simpa using hst⟩
      | cons c s' =>
        simp only [List.cons_append, List.cons.injEq] at hst
        exact Or.inr ⟨s', t, hst.2⟩

theorem sublistAt_map (f : Char → Char) (n h : List Char)
    (hs : sublistAt n h = true) :
    sublistAt (n.map f) (h.map f) = true := by
  rw [sublistAt_iff] at hs ⊢
  rcases hs with ⟨s, t, rfl⟩
  exact ⟨s.map f, t.map f, by simp⟩

theorem sublistAt_self (n : List Char) : sublistAt n n = true := by
  rw [sublistAt_iff]; exact ⟨[], [], by simp⟩

/-- If a string contains `"Already following"` then its lower-casing
contains `"already following"`. -/
theorem contains_lower_already (m : String)
    (h : containsSub "Already following" m = true) :
    containsSub "already following" (lowerStr m) = true := by
  have h2 := sublistAt_map Char.toLower _ _ h
  have hc : (String.data "Already following").map Char.toLower =
      String.data "already following" := by decide
  rw [hc] at h2
  exact h2

/-- If a string contains `"Rate limited"` then its lower-casing contains
`"rate limit"`. -/
theorem contains_lower_rate (m : String)
    (h : containsSub "Rate limited" m = true) :
    containsSub "rate limit" (lowerStr m) = true := by
  have h2 := sublistAt_map Char.toLower _ _ h
  have hc : (String.data "Rate limited").map Char.toLower =
      String.data "rate limit" ++ String.data "ed" := by decide
  rw [hc] at h2
  rw [sublistAt_iff] at h2
  rcases h2 with ⟨s, t, hst⟩
  show sublistAt (String.data "rate limit") ((String.data m).map Char.toLower) = true
  rw [sublistAt_iff]
  refine ⟨s, String.data "ed" ++ t, ?_⟩
  rw [hst]
  simp [List.append_assoc]

/-!
## Follower (`BlueskyFollower`)

The remote `client.follow(did)` call is modelled by `FollowOutcome`:
either it returns an object with an optional `uri`, or it raises an
exception carrying a message. A run of `follow_bulk` consults an oracle
`o : Nat → FollowOutcome` giving the outcome of the n-th remote follow
call, and a timestamp oracle `tso : Nat → String`.
-/

/-- Outcome of one remote `client.follow(did)` call. -/
inductive FollowOutcome where
  | ok (uri : Option String)
  | exn (msg : String)
deriving DecidableEq

/-- A result dictionary built by the follower. A `none` in `uri`,
`error` or `timestamp` means the key is absent from the dictionary. -/
structure FollowResult where
  did : Option String
  handle : Option String
  success : Bool
  uri : Option String := none
  error : Option String := none
  timestamp : Option String := none
deriving DecidableEq

/-- An input account record for `follow_bulk`: a dictionary that may carry
the identifier and handle under either of two case-variant keys; `none`
means the key is absent. -/
structure AccountRec where
  did : Option String := none
  DID : Option String := none
  handle : Option String := none
  Handle : Option String := none
deriving DecidableEq

/-- Model of `BlueskyFollower.follow_user`: one follow attempt. `outcome` is the
behaviour of the remote call and `ts` the current timestamp. -/
def follow_user (outcome : FollowOutcome) (ts : String) (did : String)
    (handle : Option String) : FollowResult :=
  match outcome with
  | FollowOutcome.ok uri =>
    { did := some did, handle := handle, success := true, uri := uri,
      timestamp := some ts }
  | FollowOutcome.exn msg =>
    if containsSub "already following" (lowerStr msg) then
      { did := some did, handle := handle, success := false,
        error := some "Already following", timestamp := some ts }
    else if containsSub "rate limit" (lowerStr msg) then
      { did := some did, handle := handle, success := false,
        error := some "Rate limited", timestamp := some ts }
    else
      { did := some did, handle := handle, success := false,
        error := some msg, timestamp := some ts }

/-- The mutable state of the `follow_bulk` loop: the results list, the
four counters, and the number of remote follow calls made so far
(used to index the oracle). -/
structure BulkState where
  results : List FollowResult
  successful : Nat
  failed : Nat
  already_following : Nat
  rate_limited : Nat
  calls : Nat
deriving DecidableEq

/-- The result record appended when an account has no usable identifier
(note: the source builds this dictionary without a `timestamp` key). -/
def noDidResult (handle : Option String) : FollowResult :=
  { did := none, handle := handle, success := false,
    error := some "No DID provided" }

/-- The `for` loop of `BlueskyFollower.follow_bulk` over the (already
truncated) account list. -/
def follow_bulk_go (o : Nat → FollowOutcome) (tso : Nat → String) :
    List AccountRec → BulkState → BulkState
  | [], st => st
  | a :: rest, st =>
    let did := pyOr a.did a.DID
    let handle := pyOr a.handle a.Handle
    if !truthy did then
      follow_bulk_go o tso rest
        { st with results := st.results ++ [noDidResult handle],
                  failed := st.failed + 1 }
    else
      let r := follow_user (o st.calls) (tso st.calls) (did.getD "") handle
      let st1 : BulkState :=
        { st with results := st.results ++ [r], calls := st.calls + 1 }
      if r.success then
        follow_bulk_go o tso rest { st1 with successful := st1.successful + 1 }
      else
        let err := r.error.getD "Unknown error"
        if containsSub "Already following" err then
          follow_bulk_go o tso rest
            { st1 with already_following := st1.already_following + 1 }
        else if containsSub "Rate limited" err then
          { st1 with rate_limited := st1.rate_limited + 1 }
        else
          follow_bulk_go o tso rest { st1 with failed := st1.failed + 1 }

/-- Summary dictionary returned by `follow_bulk`. -/
structure FollowSummary where
  total_attempted : Nat
  successful : Nat
  already_following : Nat
  failed : Nat
  rate_limited : Nat
  rate_limited_stopped : Bool
deriving DecidableEq

/-- Truncation `accounts[:max_follows] if max_follows else accounts` — a `max_follows`
of `None` or `0` is falsy and leaves the list untruncated. `max_follows`
is modelled as an optional natural number (the non-negative case of the
source's optional `int`; a Python slice `[:m]` with `m ≥ 0` is `take m`). -/
def accountsToProcess (accounts : List AccountRec) :
    Option Nat → List AccountRec
  | none => accounts
  | some m => if m = 0 then accounts else accounts.take m

/-- Initial state of the `follow_bulk` loop. -/
def initBulkState : BulkState :=
  { results := [], successful := 0, failed := 0, already_following := 0,
    rate_limited := 0, calls := 0 }

/-- Model of `BlueskyFollower.follow_bulk`: returns the results list and the
summary. -/
def follow_bulk (o : Nat → FollowOutcome) (tso : Nat → String)
    (accounts : List AccountRec) (max_follows : Option Nat) :
    List FollowResult × FollowSummary :=
  let st := follow_bulk_go o tso (accountsToProcess accounts max_follows)
    initBulkState
  (st.results,
   { total_attempted := st.results.length,
     successful := st.successful,
     already_following := st.already_following,
     failed := st.failed,
     rate_limited := st.rate_limited,
     rate_limited_stopped := decide (st.rate_limited > 0) })

/-!
## Scraper (`BlueskyScraper`)

The remote `search_actors` call either raises or returns a response with
a (possibly empty) actor list and an optional cursor. Within one keyword,
each loop iteration issues exactly one remote call, and the number of
calls made before an iteration equals the current value of `page` (the
`page` counter advances exactly on the non-empty pages, which are the
only pages after which the loop can continue); the oracle
`o : Nat → SearchResp` is therefore indexed by `page`. Per-actor
timestamps come from an oracle `tso : Nat → Nat → String` indexed by page
and position in the page.
-/

/-- A raw actor record from the remote service; `none` models an absent
attribute (`getattr` default applies). -/
structure Actor where
  did : String
  handle : String
  display_name : Option String := none
  description : Option String := none
  avatar : Option String := none
  followers_count : Option Nat := none
deriving DecidableEq

/-- The account dictionary built by `scrape_keyword` for one actor. -/
structure Account where
  did : String
  handle : String
  displayName : String
  description : String
  avatar : String
  followersCount : Nat
  profileUrl : String
  keyword : String
  scrapedAt : String
deriving DecidableEq

/-- One remote `search_actors` call: either it raises, or it returns a
response carrying an actor list (empty when the attribute is missing)
and an optional cursor (`none` when the attribute is missing). -/
inductive SearchResp where
  | fail
  | page (actors : List Actor) (cursor : Option String)
deriving DecidableEq

/-- The account dictionary built for `actor` found under `keyword`,
timestamped `ts`. -/
def mkAccount (kw ts : String) (a : Actor) : Account :=
  { did := a.did, handle := a.handle,
    displayName := a.display_name.getD "N/A",
    description := a.description.getD "N/A",
    avatar := a.avatar.getD "",
    followersCount := a.followers_count.getD 0,
    profileUrl := "https://bsky.app/profile/" ++ a.handle,
    keyword := kw, scrapedAt := ts }

/-- The accounts contributed by the remote call at page index `p`: none
if the call raises, otherwise one account per actor of the page. -/
def pageContribution (o : Nat → SearchResp) (kw : String)
    (tso : Nat → Nat → String) (p : Nat) : List Account :=
  match o p with
  | SearchResp.fail => []
  | SearchResp.page actors _ =>
    actors.mapIdx (fun j a => mkAccount kw (tso p j) a)

/-- The `while page < max_pages` loop of `scrape_keyword`. `fuel` is
`max_pages - page`, so the loop guard is `fuel > 0`. Returns the
collected accounts and the total number of remote calls issued. -/
def scrapeAux (o : Nat → SearchResp) (kw : String)
    (tso : Nat → Nat → String) :
    Nat → Nat → List Account → List Account × Nat
  | 0, page, acc => (acc, page)
  | fuel + 1, page, acc =>
    match o page with
    | SearchResp.fail => (acc, page + 1)
    | SearchResp.page actors cursor =>
      if actors.isEmpty then (acc, page + 1)
      else
        let acc1 := acc ++ actors.mapIdx (fun j a => mkAccount kw (tso page j) a)
        if truthy cursor then scrapeAux o kw tso fuel (page + 1) acc1
        else (acc1, page + 1)

/-- Model of `BlueskyScraper.scrape_keyword`. -/
def scrape_keyword (o : Nat → SearchResp) (max_pages : Nat) (kw : String)
    (tso : Nat → Nat → String) : List Account :=
  (scrapeAux o kw tso max_pages 0 []).1

/-- The number of remote search calls a `scrape_keyword` run issues. -/
def scrape_calls (o : Nat → SearchResp) (max_pages : Nat) (kw : String)
    (tso : Nat → Nat → String) : Nat :=
  (scrapeAux o kw tso max_pages 0 []).2

/-- The `for` loop of `scrape_multiple_keywords`: keyword number `i` runs
against its own response oracle `O i` and timestamp oracle `TS i`. -/
def scrape_multiple_go (O : Nat → Nat → SearchResp)
    (TS : Nat → Nat → Nat → String) (max_pages : Nat) :
    Nat → List String → List Account
  | _, [] => []
  | i, k :: ks =>
    scrape_keyword (O i) max_pages k (TS i) ++
      scrape_multiple_go O TS max_pages (i + 1) ks

/-- Model of `BlueskyScraper.scrape_multiple_keywords`. -/
def scrape_multiple_keywords (O : Nat → Nat → SearchResp)
    (TS : Nat → Nat → Nat → String) (max_pages : Nat)
    (keywords : List String) : List Account :=
  scrape_multiple_go O TS max_pages 0 keywords

/-!
## Deduplication (`BlueskyScraper.deduplicate`)

The instance's `seen_dids` set is threaded explicitly: `deduplicate`
takes the current seen-set and returns the surviving accounts together
with the updated seen-set.
-/

/-- The `for` loop of `deduplicate`: keep an account iff its did is not
in the seen-set, adding each kept did to the seen-set at once. -/
def dedupGo : List Account → Finset String → List Account × Finset String
  | [], seen => ([], seen)
  | a :: rest, seen =>
    if a.did ∈ seen then dedupGo rest seen
    else
      let p := dedupGo rest (insert a.did seen)
      (a :: p.1, p.2)

/-- The `if seen_dids: self.seen_dids.update(seen_dids)` step: `none`
models Python `None`, and an empty list is falsy and is not unioned. -/
def dedupSeed (seen_dids : Option (List String)) (seen : Finset String) :
    Finset String :=
  match seen_dids with
  | some l => if l.isEmpty then seen else seen ∪ l.toFinset
  | none => seen

/-- Model of `BlueskyScraper.deduplicate`: `seen_dids` is the optional argument,
`seen` the instance's current `seen_dids` set. -/
def deduplicate (accounts : List Account) (seen_dids : Option (List String))
    (seen : Finset String) : List Account × Finset String :=
  dedupGo accounts (dedupSeed seen_dids seen)

/-!
## Follower: classification and loop lemmas
-/

theorem containsSub_self (s : String) : containsSub s s = true :=
  sublistAt_self _

theorem not_contains_already (msg : String)
    (h : containsSub "already following" (lowerStr msg) = false) :
    containsSub "Already following" msg = false := by
  cases hc : containsSub "Already following" msg
  · rfl
  · exact absurd (contains_lower_already msg hc) (by simp [h])

theorem not_contains_rate (msg : String)
    (h : containsSub "rate limit" (lowerStr msg) = false) :
    containsSub "Rate limited" msg = false := by
  cases hc : containsSub "Rate limited" msg
  · rfl
  · exact absurd (contains_lower_rate msg hc) (by simp [h])

theorem af_in_rl : containsSub "Already following" "Rate limited" = false := by
  decide

/-- Evaluation of `follow_user` in the "already following" branch. -/
theorem follow_user_af (msg ts did : String) (handle : Option String)
    (hA : containsSub "already following" (lowerStr msg) = true) :
    follow_user (FollowOutcome.exn msg) ts did handle =
      { did := some did, handle := handle, success := false,
        error := some "Already following", timestamp := some ts } := by
  simp [follow_user, hA]

/-- Evaluation of `follow_user` in the "rate limit" branch. -/
theorem follow_user_rl (msg ts did : String) (handle : Option String)
    (hA : containsSub "already following" (lowerStr msg) = false)
    (hR : containsSub "rate limit" (lowerStr msg) = true) :
    follow_user (FollowOutcome.exn msg) ts did handle =
      { did := some did, handle := handle, success := false,
        error := some "Rate limited", timestamp := some ts } := by
  simp [follow_user, hA, hR]

/-- Evaluation of `follow_user` in the generic-failure branch. -/
theorem follow_user_gen (msg ts did : String) (handle : Option String)
    (hA : containsSub "already following" (lowerStr msg) = false)
    (hR : containsSub "rate limit" (lowerStr msg) = false) :
    follow_user (FollowOutcome.exn msg) ts did handle =
      { did := some did, handle := handle, success := false,
        error := some msg, timestamp := some ts } := by
  simp [follow_user, hA, hR]

/-- Loop step: account without a usable identifier. -/
theorem go_cons_nodid (o : Nat → FollowOutcome) (tso : Nat → String)
    (a : AccountRec) (rest : List AccountRec) (st : BulkState)
    (hd : truthy (pyOr a.did a.DID) = false) :
    follow_bulk_go o tso (a :: rest) st =
      follow_bulk_go o tso rest
        { st with
            results := st.results ++ [noDidResult (pyOr a.handle a.Handle)],
            failed := st.failed + 1 } := by
  simp [follow_bulk_go, hd]

/-- Loop step: the remote call succeeds. -/
theorem go_cons_ok (o : Nat → FollowOutcome) (tso : Nat → String)
    (a : AccountRec) (rest : List AccountRec) (st : BulkState)
    (u : Option String)
    (hd : truthy (pyOr a.did a.DID) = true)
    (ho : o st.calls = FollowOutcome.ok u) :
    follow_bulk_go o tso (a :: rest) st =
      follow_bulk_go o tso rest
        { st with
            results := st.results ++
              [follow_user (FollowOutcome.ok u) (tso st.calls)
                ((pyOr a.did a.DID).getD "") (pyOr a.handle a.Handle)],
            calls := st.calls + 1,
            successful := st.successful + 1 } := by
  simp [follow_bulk_go, hd, ho, follow_user]

/-- Loop step: the remote call raises an "already following" error. -/
theorem go_cons_af (o : Nat → FollowOutcome) (tso : Nat → String)
    (a : AccountRec) (rest : List AccountRec) (st : BulkState) (msg : String)
    (hd : truthy (pyOr a.did a.DID) = true)
    (ho : o st.calls = FollowOutcome.exn msg)
    (hA : containsSub "already following" (lowerStr msg) = true) :
    follow_bulk_go o tso (a :: rest) st =
      follow_bulk_go o tso rest
        { st with
            results := st.results ++
              [follow_user (FollowOutcome.exn msg) (tso st.calls)
                ((pyOr a.did a.DID).getD "") (pyOr a.handle a.Handle)],
            calls := st.calls + 1,
            already_following := st.already_following + 1 } := by
  simp [follow_bulk_go, hd, ho, follow_user_af _ _ _ _ hA, containsSub_self]

/-- Loop step: the remote call raises a rate-limit error — the loop
breaks at once, with the rate-limited result as the last one. -/
theorem go_cons_rl (o : Nat → FollowOutcome) (tso : Nat → String)
    (a : AccountRec) (rest : List AccountRec) (st : BulkState) (msg : String)
    (hd : truthy (pyOr a.did a.DID) = true)
    (ho : o st.calls = FollowOutcome.exn msg)
    (hA : containsSub "already following" (lowerStr msg) = false)
    (hR : containsSub "rate limit" (lowerStr msg) = true) :
    follow_bulk_go o tso (a :: rest) st =
      { st with
          results := st.results ++
            [follow_user (FollowOutcome.exn msg) (tso st.calls)
              ((pyOr a.did a.DID).getD "") (pyOr a.handle a.Handle)],
          calls := st.calls + 1,
          rate_limited := st.rate_limited + 1 } := by
  simp [follow_bulk_go, hd, ho, follow_user_rl _ _ _ _ hA hR, af_in_rl,
    containsSub_self]

/-- Loop step: the remote call raises a generic error. -/
theorem go_cons_gen (o : Nat → FollowOutcome) (tso : Nat → String)
    (a : AccountRec) (rest : List AccountRec) (st : BulkState) (msg : String)
    (hd : truthy (pyOr a.did a.DID) = true)
    (ho : o st.calls = FollowOutcome.exn msg)
    (hA : containsSub "already following" (lowerStr msg) = false)
    (hR : containsSub "rate limit" (lowerStr msg) = false) :
    follow_bulk_go o tso (a :: rest) st =
      follow_bulk_go o tso rest
        { st with
            results := st.results ++
              [follow_user (FollowOutcome.exn msg) (tso st.calls)
                ((pyOr a.did a.DID).getD "") (pyOr a.handle a.Handle)],
            calls := st.calls + 1,
            failed := st.failed + 1 } := by
  simp [follow_bulk_go, hd, ho, follow_user_gen _ _ _ _ hA hR,
    not_contains_already _ hA, not_contains_rate _ hR]

/-- Result classified as a success. -/
def isSuccessR (r : FollowResult) : Bool := r.success

/-- Result classified "Already following". -/
def isAlreadyR (r : FollowResult) : Bool :=
  !r.success && (r.error == some "Already following")

/-- Result classified "Rate limited". -/
def isRateR (r : FollowResult) : Bool :=
  !r.success && (r.error == some "Rate limited")

/-- Any remaining failure result: generic errors and missing-identifier
records. -/
def isOtherFailR (r : FollowResult) : Bool :=
  !r.success && !(r.error == some "Already following") &&
    !(r.error == some "Rate limited")

/-- Number of results in `l` satisfying `p`. -/
def countP (p : FollowResult → Bool) (l : List FollowResult) : Nat :=
  (l.filter p).length

theorem countP_append (p : FollowResult → Bool) (l : List FollowResult)
    (r : FollowResult) :
    countP p (l ++ [r]) = countP p l + (if p r then 1 else 0) := by
  cases hp : p r <;> simp [countP, List.filter_append, hp]

/-- The four categories partition any result list. -/
theorem countP_partition (l : List FollowResult) :
    countP isSuccessR l + countP isAlreadyR l + countP isRateR l +
      countP isOtherFailR l = l.length := by
  have hne1 : ¬ (("Already following" : String) = "Rate limited") := by decide
  induction l with
  | nil => rfl
  | cons r t ih =>
    by_cases hs : r.success = true
    · simp only [countP, List.filter_cons, isSuccessR, isAlreadyR, isRateR,
        isOtherFailR, hs, Bool.not_true, Bool.false_and, Bool.and_self,
        if_true, if_false, List.length_cons, ite_true, ite_false,
        Bool.false_eq_true] at *
      omega
    · rw [Bool.not_eq_true] at hs
      by_cases hA : r.error = some "Already following"
      · simp only [countP, List.filter_cons, isSuccessR, isAlreadyR, isRateR,
          isOtherFailR, hs, hA, Bool.not_false, Bool.true_and, beq_iff_eq,
          Option.some.injEq, hne1, List.length_cons, ite_true, ite_false,
          if_false, if_true, Bool.false_eq_true, beq_self_eq_true,
          Bool.not_true, Bool.false_and, Bool.and_false] at *
        omega
      · by_cases hR : r.error = some "Rate limited"
        · simp only [countP, List.filter_cons, isSuccessR, isAlreadyR,
            isRateR, isOtherFailR, hs, hR, Bool.not_false, Bool.true_and,
            beq_iff_eq, Option.some.injEq, hne1, List.length_cons, ite_true,
            ite_false, Bool.false_eq_true, beq_self_eq_true, Bool.not_true,
            Bool.false_and, Bool.and_false,
            show ¬ (("Rate limited" : String) = "Already following") by decide,
            Option.some_inj] at *
          omega
        · have hA2 : (r.error == some "Already following") = false := by
            simpa using hA
          have hR2 : (r.error == some "Rate limited") = false := by
            simpa using hR
          simp only [countP, List.filter_cons, isSuccessR, isAlreadyR,
            isRateR, isOtherFailR, hs, hA2, hR2, Bool.not_false,
            Bool.true_and, Bool.and_false, Bool.and_self, List.length_cons,
            ite_true, ite_false, Bool.false_eq_true, Bool.and_true] at *
          omega

theorem msg_ne_af (msg : String)
    (hA : containsSub "already following" (lowerStr msg) = false) :
    ¬ (msg = "Already following") := by
  intro e
  rw [e] at hA
  have hc : containsSub "already following" (lowerStr "Already following") =
      true := by decide
  rw [hc] at hA
  cases hA

theorem msg_ne_rl (msg : String)
    (hR : containsSub "rate limit" (lowerStr msg) = false) :
    ¬ (msg = "Rate limited") := by
  intro e
  rw [e] at hR
  have hc : containsSub "rate limit" (lowerStr "Rate limited") = true := by
    decide
  rw [hc] at hR
  cases hR

theorem af_ne_rl : ¬ (("Already following" : String) = "Rate limited") := by
  decide

theorem rl_ne_af : ¬ (("Rate limited" : String) = "Already following") := by
  decide

theorem nodid_ne_af : ¬ (("No DID provided" : String) = "Already following") := by
  decide

theorem nodid_ne_rl : ¬ (("No DID provided" : String) = "Rate limited") := by
  decide

/-- The loop counters agree with the category counts over the results
list accumulated so far. -/
def BulkInv (st : BulkState) : Prop :=
  st.successful = countP isSuccessR st.results ∧
  st.already_following = countP isAlreadyR st.results ∧
  st.rate_limited = countP isRateR st.results ∧
  st.failed = countP isOtherFailR st.results

theorem follow_bulk_go_inv (o : Nat → FollowOutcome) (tso : Nat → String) :
    ∀ (accounts : List AccountRec) (st : BulkState), BulkInv st →
      BulkInv (follow_bulk_go o tso accounts st) := by
  intro accounts
  induction accounts with
  | nil => intro st h; simpa [follow_bulk_go] using h
  | cons a rest ih =>
    intro st h
    obtain ⟨h1, h2, h3, h4⟩ := h
    by_cases hd : truthy (pyOr a.did a.DID) = true
    · cases ho : o st.calls with
      | ok u =>
        rw [go_cons_ok o tso a rest st u hd ho]
        apply ih
        refine ⟨?_, ?_, ?_, ?_⟩ <;>
          simp [countP_append, h1, h2, h3, h4, isSuccessR, isAlreadyR,
            isRateR, isOtherFailR, follow_user]
      | exn msg =>
        by_cases hA : containsSub "already following" (lowerStr msg) = true
        · rw [go_cons_af o tso a rest st msg hd ho hA,
            follow_user_af _ _ _ _ hA]
          apply ih
          refine ⟨?_, ?_, ?_, ?_⟩ <;>
            simp [countP_append, h1, h2, h3, h4, isSuccessR, isAlreadyR,
              isRateR, isOtherFailR, af_ne_rl]
        · rw [Bool.not_eq_true] at hA
          by_cases hR : containsSub "rate limit" (lowerStr msg) = true
          · rw [go_cons_rl o tso a rest st msg hd ho hA hR,
              follow_user_rl _ _ _ _ hA hR]
            refine ⟨?_, ?_, ?_, ?_⟩ <;>
              simp [countP_append, h1, h2, h3, h4, isSuccessR, isAlreadyR,
                isRateR, isOtherFailR, rl_ne_af]
          · rw [Bool.not_eq_true] at hR
            rw [go_cons_gen o tso a rest st msg hd ho hA hR,
              follow_user_gen _ _ _ _ hA hR]
            apply ih
            refine ⟨?_, ?_, ?_, ?_⟩ <;>
              simp [countP_append, h1, h2, h3, h4, isSuccessR, isAlreadyR,
                isRateR, isOtherFailR, msg_ne_af msg hA, msg_ne_rl msg hR]
    · rw [Bool.not_eq_true] at hd
      rw [go_cons_nodid o tso a rest st hd]
      apply ih
      refine ⟨?_, ?_, ?_, ?_⟩ <;>
        simp [countP_append, h1, h2, h3, h4, isSuccessR, isAlreadyR,
          isRateR, isOtherFailR, noDidResult, nodid_ne_af, nodid_ne_rl]

/-- Every result the loop ever appends is either a missing-identifier
record or a `follow_user` result, so any property of those two shapes
holds of all results. -/
theorem follow_bulk_go_all (o : Nat → FollowOutcome) (tso : Nat → String)
    (P : FollowResult → Prop)
    (hnd : ∀ h, P (noDidResult h))
    (hfu : ∀ oc ts d h, P (follow_user oc ts d h)) :
    ∀ (accounts : List AccountRec) (st : BulkState),
      (∀ r ∈ st.results, P r) →
      ∀ r ∈ (follow_bulk_go o tso accounts st).results, P r := by
  intro accounts
  induction accounts with
  | nil => intro st h; simpa [follow_bulk_go] using h
  | cons a rest ih =>
    intro st h
    have hstep : ∀ r0, P r0 → ∀ r ∈ st.results ++ [r0], P r := by
      intro r0 h0 r hr
      rcases List.mem_append.mp hr with hr | hr
      · exact h r hr
      · rw [List.mem_singleton.mp hr]; exact h0
    by_cases hd : truthy (pyOr a.did a.DID) = true
    · cases ho : o st.calls with
      | ok u =>
        rw [go_cons_ok o tso a rest st u hd ho]
        exact ih _ (hstep _ (hfu _ _ _ _))
      | exn msg =>
        by_cases hA : containsSub "already following" (lowerStr msg) = true
        · rw [go_cons_af o tso a rest st msg hd ho hA]
          exact ih _ (hstep _ (hfu _ _ _ _))
        · rw [Bool.not_eq_true] at hA
          by_cases hR : containsSub "rate limit" (lowerStr msg) = true
          · rw [go_cons_rl o tso a rest st msg hd ho hA hR]
            exact hstep _ (hfu _ _ _ _)
          · rw [Bool.not_eq_true] at hR
            rw [go_cons_gen o tso a rest st msg hd ho hA hR]
            exact ih _ (hstep _ (hfu _ _ _ _))
    · rw [Bool.not_eq_true] at hd
      rw [go_cons_nodid o tso a rest st hd]
      exact ih _ (hstep _ (hnd _))

/-- The loop appends at most one result per account. -/
theorem follow_bulk_go_len (o : Nat → FollowOutcome) (tso : Nat → String) :
    ∀ (accounts : List AccountRec) (st : BulkState),
      (follow_bulk_go o tso accounts st).results.length ≤
        st.results.length + accounts.length := by
  intro accounts
  induction accounts with
  | nil => intro st; simp [follow_bulk_go]
  | cons a rest ih =>
    intro st
    by_cases hd : truthy (pyOr a.did a.DID) = true
    · cases ho : o st.calls with
      | ok u =>
        rw [go_cons_ok o tso a rest st u hd ho]
        have := ih { st with
          results := st.results ++
            [follow_user (FollowOutcome.ok u) (tso st.calls)
              ((pyOr a.did a.DID).getD "") (pyOr a.handle a.Handle)],
          calls := st.calls + 1, successful := st.successful + 1 }
        simp only [List.length_append, List.length_singleton,
          List.length_cons, List.length_nil] at this ⊢
        omega
      | exn msg =>
        by_cases hA : containsSub "already following" (lowerStr msg) = true
        · rw [go_cons_af o tso a rest st msg hd ho hA]
          have := ih { st with
            results := st.results ++
              [follow_user (FollowOutcome.exn msg) (tso st.calls)
                ((pyOr a.did a.DID).getD "") (pyOr a.handle a.Handle)],
            calls := st.calls + 1,
            already_following := st.already_following + 1 }
          simp only [List.length_append, List.length_singleton,
            List.length_cons, List.length_nil] at this ⊢
          omega
        · rw [Bool.not_eq_true] at hA
          by_cases hR : containsSub "rate limit" (lowerStr msg) = true
          · rw [go_cons_rl o tso a rest st msg hd ho hA hR]
            simp only [List.length_append, List.length_singleton,
              List.length_cons, List.length_nil]
            omega
          · rw [Bool.not_eq_true] at hR
            rw [go_cons_gen o tso a rest st msg hd ho hA hR]
            have := ih { st with
              results := st.results ++
                [follow_user (FollowOutcome.exn msg) (tso st.calls)
                  ((pyOr a.did a.DID).getD "") (pyOr a.handle a.Handle)],
              calls := st.calls + 1, failed := st.failed + 1 }
            simp only [List.length_append, List.length_singleton,
              List.length_cons, List.length_nil] at this ⊢
            omega
    · rw [Bool.not_eq_true] at hd
      rw [go_cons_nodid o tso a rest st hd]
      have := ih { st with
        results := st.results ++ [noDidResult (pyOr a.handle a.Handle)],
        failed := st.failed + 1 }
      simp only [List.length_append, List.length_singleton,
        List.length_cons, List.length_nil] at this ⊢
      omega

/-- Every result strictly before the last one is not rate-limited: the
loop never continues past a rate-limited result. -/
theorem follow_bulk_go_dropLast (o : Nat → FollowOutcome)
    (tso : Nat → String) :
    ∀ (accounts : List AccountRec) (st : BulkState),
      (∀ r ∈ st.results, r.error ≠ some "Rate limited") →
      ∀ r ∈ (follow_bulk_go o tso accounts st).results.dropLast,
        r.error ≠ some "Rate limited" := by
  intro accounts
  induction accounts with
  | nil =>
    intro st h r hr
    exact h r (List.dropLast_subset _ (by simpa [follow_bulk_go] using hr))
  | cons a rest ih =>
    intro st h
    have hstep : ∀ r0 : FollowResult, r0.error ≠ some "Rate limited" →
        ∀ r ∈ st.results ++ [r0], r.error ≠ some "Rate limited" := by
      intro r0 h0 r hr
      rcases List.mem_append.mp hr with hr | hr
      · exact h r hr
      · rw [List.mem_singleton.mp hr]; exact h0
    by_cases hd : truthy (pyOr a.did a.DID) = true
    · cases ho : o st.calls with
      | ok u =>
        rw [go_cons_ok o tso a rest st u hd ho]
        exact ih _ (hstep _ (by simp [follow_user]))
      | exn msg =>
        by_cases hA : containsSub "already following" (lowerStr msg) = true
        · rw [go_cons_af o tso a rest st msg hd ho hA,
            follow_user_af _ _ _ _ hA]
          exact ih _ (hstep _ (by simp))
        · rw [Bool.not_eq_true] at hA
          by_cases hR : containsSub "rate limit" (lowerStr msg) = true
          · rw [go_cons_rl o tso a rest st msg hd ho hA hR]
            intro r hr
            simp only [List.dropLast_concat] at hr
            exact h r hr
          · rw [Bool.not_eq_true] at hR
            rw [go_cons_gen o tso a rest st msg hd ho hA hR,
              follow_user_gen _ _ _ _ hA hR]
            exact ih _ (hstep _ (by simp; exact msg_ne_rl msg hR))
    · rw [Bool.not_eq_true] at hd
      rw [go_cons_nodid o tso a rest st hd]
      exact ih _ (hstep _ (by simp [noDidResult]))

/-- C3: the summary returned by `follow_bulk` always equals counts derived
from the accompanying results list — `total_attempted` is the length of
`results`, `successful` counts the successes, `already_following` the
results classified "Already following", `rate_limited` those classified
"Rate limited", `failed` the remaining failures (generic errors plus
missing-identifier records), and the four categories partition the
results list. -/
theorem C3_summary_matches_results (o : Nat → FollowOutcome)
    (tso : Nat → String) (accounts : List AccountRec)
    (max_follows : Option Nat) :
    (follow_bulk o tso accounts max_follows).2.total_attempted =
      (follow_bulk o tso accounts max_follows).1.length ∧
    (follow_bulk o tso accounts max_follows).2.successful =
      countP isSuccessR (follow_bulk o tso accounts max_follows).1 ∧
    (follow_bulk o tso accounts max_follows).2.already_following =
      countP isAlreadyR (follow_bulk o tso accounts max_follows).1 ∧
    (follow_bulk o tso accounts max_follows).2.rate_limited =
      countP isRateR (follow_bulk o tso accounts max_follows).1 ∧
    (follow_bulk o tso accounts max_follows).2.failed =
      countP isOtherFailR (follow_bulk o tso accounts max_follows).1 ∧
    (follow_bulk o tso accounts max_follows).2.successful +
      (follow_bulk o tso accounts max_follows).2.already_following +
      (follow_bulk o tso accounts max_follows).2.rate_limited +
      (follow_bulk o tso accounts max_follows).2.failed =
      (follow_bulk o tso accounts max_follows).2.total_attempted := by
  have key : ∀ st : BulkState, BulkInv st →
      st.results.length = st.results.length ∧
      st.successful = countP isSuccessR st.results ∧
      st.already_following = countP isAlreadyR st.results ∧
      st.rate_limited = countP isRateR st.results ∧
      st.failed = countP isOtherFailR st.results ∧
      st.successful + st.already_following + st.rate_limited + st.failed =
        st.results.length := by
    intro st h
    obtain ⟨i1, i2, i3, i4⟩ := h
    refine ⟨rfl, i1, i2, i3, i4, ?_⟩
    rw [i1, i2, i3, i4]
    have := countP_partition st.results
    omega
  exact key (follow_bulk_go o tso (accountsToProcess accounts max_follows)
    initBulkState)
    (follow_bulk_go_inv o tso (accountsToProcess accounts max_follows)
      initBulkState ⟨rfl, rfl, rfl, rfl⟩)

/-- C4: `follow_user` is a total function returning a result record for
every outcome of the remote call; on failure the error message is
classified by case-insensitive substring match into "Already following",
then "Rate limited", then the raw text, in that priority order — so a
message matching both substrings is classified "Already following". -/
theorem C4_follow_user_classification (msg ts did : String)
    (handle : Option String) :
    (∀ u, (follow_user (FollowOutcome.ok u) ts did handle).success = true) ∧
    (follow_user (FollowOutcome.exn msg) ts did handle).success = false ∧
    (containsSub "already following" (lowerStr msg) = true →
      (follow_user (FollowOutcome.exn msg) ts did handle).error =
        some "Already following") ∧
    (containsSub "already following" (lowerStr msg) = false →
      containsSub "rate limit" (lowerStr msg) = true →
      (follow_user (FollowOutcome.exn msg) ts did handle).error =
        some "Rate limited") ∧
    (containsSub "already following" (lowerStr msg) = false →
      containsSub "rate limit" (lowerStr msg) = false →
      (follow_user (FollowOutcome.exn msg) ts did handle).error =
        some msg) := by
  refine ⟨fun u => rfl, ?_, fun hA => by rw [follow_user_af _ _ _ _ hA],
    fun hA hR => by rw [follow_user_rl _ _ _ _ hA hR],
    fun hA hR => by rw [follow_user_gen _ _ _ _ hA hR]⟩
  by_cases hA : containsSub "already following" (lowerStr msg) = true
  · rw [follow_user_af _ _ _ _ hA]
  · rw [Bool.not_eq_true] at hA
    by_cases hR : containsSub "rate limit" (lowerStr msg) = true
    · rw [follow_user_rl _ _ _ _ hA hR]
    · rw [Bool.not_eq_true] at hR
      rw [follow_user_gen _ _ _ _ hA hR]

/-- Witness for C4: a message containing both distinguished substrings is
classified "Already following" (priority order, first match wins). -/
theorem C4_follow_user_classification_witness :
    (follow_user (FollowOutcome.exn "Error: ALREADY FOLLOWING (Rate Limit exceeded)")
      "2026-01-01T00:00:00" "did:plc:x" none).error =
      some "Already following" :=
  (C4_follow_user_classification
    "Error: ALREADY FOLLOWING (Rate Limit exceeded)"
    "2026-01-01T00:00:00" "did:plc:x" none).2.2.1 (by decide)

/-- Concrete account fixtures for closed-form runs. -/
def exA : AccountRec :=
  { did := some "did:plc:alice", handle := some "alice.bsky.social" }

def exB : AccountRec :=
  { did := some "did:plc:bob", handle := some "bob.bsky.social" }

def exNoDid : AccountRec := { handle := some "carol.bsky.social" }

def exDDID : AccountRec :=
  { did := some "", DID := some "did:plc:dan", handle := some "dan.bsky.social" }

/-- Oracle: the first remote follow call succeeds, every later one raises
a rate-limit error. -/
def exOracle : Nat → FollowOutcome := fun n =>
  if n = 0 then FollowOutcome.ok (some "at://follow/1")
  else FollowOutcome.exn "Error: rate limit exceeded"

def exTso : Nat → String := fun _ => "2026-01-01T00:00:00"

/-- Results satisfy: a successful result carries no error key. -/
theorem follow_bulk_results_success_no_error (o : Nat → FollowOutcome)
    (tso : Nat → String) (accounts : List AccountRec)
    (max_follows : Option Nat) :
    ∀ r ∈ (follow_bulk o tso accounts max_follows).1,
      r.success = true → r.error = none := by
  have := follow_bulk_go_all o tso (fun r => r.success = true → r.error = none)
    (fun h => by simp [noDidResult])
    (fun oc ts d h => by
      cases oc with
      | ok u => intro _; rfl
      | exn m =>
        by_cases hA : containsSub "already following" (lowerStr m) = true
        · rw [follow_user_af _ _ _ _ hA]; simp
        · rw [Bool.not_eq_true] at hA
          by_cases hR : containsSub "rate limit" (lowerStr m) = true
          · rw [follow_user_rl _ _ _ _ hA hR]; simp
          · rw [Bool.not_eq_true] at hR
            rw [follow_user_gen _ _ _ _ hA hR]; simp)
    (accountsToProcess accounts max_follows) initBulkState
    (by intro r hr; simp [initBulkState] at hr)
  exact this

/-- C1: `follow_bulk` stops at the first rate-limited result — every
result other than the last is not rate-limited, the summary's
`rate_limited_stopped` flag is true iff some result is rate-limited, and
on `[A, B, c]` where A's call succeeds and B's call raises a rate-limit
error, the run returns exactly A's success and B's rate-limited result
whatever the third account `c` is (`c` is never attempted), with
`total_attempted = 2`. -/
theorem C1_rate_limited_stops (o : Nat → FollowOutcome) (tso : Nat → String)
    (accounts : List AccountRec) (max_follows : Option Nat) (c : AccountRec) :
    (∀ r ∈ (follow_bulk o tso accounts max_follows).1.dropLast,
      r.error ≠ some "Rate limited") ∧
    ((follow_bulk o tso accounts max_follows).2.rate_limited_stopped = true ↔
      ∃ r ∈ (follow_bulk o tso accounts max_follows).1,
        r.error = some "Rate limited") ∧
    (follow_bulk exOracle exTso [exA, exB, c] none).1 =
      [{ did := some "did:plc:alice", handle := some "alice.bsky.social",
         success := true, uri := some "at://follow/1",
         timestamp := some "2026-01-01T00:00:00" },
       { did := some "did:plc:bob", handle := some "bob.bsky.social",
         success := false, error := some "Rate limited",
         timestamp := some "2026-01-01T00:00:00" }] ∧
    (follow_bulk exOracle exTso [exA, exB, c] none).2.total_attempted = 2 ∧
    (follow_bulk exOracle exTso [exA, exB, c] none).2.rate_limited_stopped =
      true := by
  refine ⟨?_, ?_, by rfl, by rfl, by rfl⟩
  · exact follow_bulk_go_dropLast o tso (accountsToProcess accounts max_follows)
      initBulkState (by intro r hr; simp [initBulkState] at hr)
  · have hP := follow_bulk_results_success_no_error o tso accounts max_follows
    have hinv := follow_bulk_go_inv o tso
      (accountsToProcess accounts max_follows) initBulkState
      ⟨rfl, rfl, rfl, rfl⟩
    obtain ⟨i1, i2, i3, i4⟩ := hinv
    show decide (0 < (follow_bulk_go o tso
        (accountsToProcess accounts max_follows) initBulkState).rate_limited)
      = true ↔ _
    rw [decide_eq_true_eq, i3]
    constructor
    · intro hpos
      have hne := List.length_pos.mp hpos
      obtain ⟨r, hr⟩ := List.exists_mem_of_ne_nil _ hne
      rw [List.mem_filter] at hr
      refine ⟨r, hr.1, ?_⟩
      have := hr.2
      simp only [isRateR, Bool.and_eq_true, beq_iff_eq] at this
      exact this.2
    · rintro ⟨r, hrm, hre⟩
      have hsucc : r.success = false := by
        cases hs : r.success
        · rfl
        · rw [hP r hrm hs] at hre; cases hre
      have hmf : r ∈ (follow_bulk_go o tso
          (accountsToProcess accounts max_follows)
          initBulkState).results.filter isRateR :=
        List.mem_filter.mpr ⟨hrm, by simp [isRateR, hsucc, hre]⟩
      have := List.length_pos.mpr (List.ne_nil_of_mem hmf)
      simpa [countP] using this

/-- Witness for C1: in the concrete rate-limited run, the (unique)
non-final result is not rate-limited. -/
theorem C1_rate_limited_stops_witness :
    ({ did := some "did:plc:alice", handle := some "alice.bsky.social",
       success := true, uri := some "at://follow/1",
       timestamp := some "2026-01-01T00:00:00" } : FollowResult).error ≠
      some "Rate limited" :=
  (C1_rate_limited_stops exOracle exTso [exA, exB, exB] none exB).1 _
    (by decide)

/-- Counterexample to C6: the source guards the truncation with
`if max_follows`, and `0` is falsy in Python, so `max_follows = 0` leaves
the list untruncated — on a one-account input the account is still
attempted (`total_attempted = 1`, not `0`), contradicting "processes only
the first max_follows entries" for every provided `max_follows`. -/
theorem C6_counterexample_zero :
    (follow_bulk exOracle exTso [exA] (some 0)).2.total_attempted = 1 ∧
    ¬ ((follow_bulk exOracle exTso [exA] (some 0)).1 = []) := by
  refine ⟨rfl, by decide⟩

/-- C6 (amended): whenever a positive `max_follows` is provided,
`follow_bulk` behaves exactly as if run on the first `max_follows`
entries of the input (original order), so no account beyond that prefix
is ever attempted, and at most `max_follows` results are produced. -/
theorem C6_max_follows_truncates (o : Nat → FollowOutcome)
    (tso : Nat → String) (accounts : List AccountRec) (m : Nat)
    (hm : 0 < m) :
    follow_bulk o tso accounts (some m) =
      follow_bulk o tso (accounts.take m) none ∧
    (follow_bulk o tso accounts (some m)).1.length ≤ m := by
  have he : accountsToProcess accounts (some m) = accounts.take m := by
    simp [accountsToProcess, Nat.pos_iff_ne_zero.mp hm]
  constructor
  · have hm2 : ¬ (m = 0) := Nat.pos_iff_ne_zero.mp hm
    simp only [follow_bulk, accountsToProcess, hm2, if_false]
  · show (follow_bulk_go o tso (accountsToProcess accounts (some m))
      initBulkState).results.length ≤ m
    rw [he]
    have h2 := follow_bulk_go_len o tso (accounts.take m) initBulkState
    simp only [initBulkState, List.length_nil, Nat.zero_add] at h2
    exact le_trans h2 (List.length_take_le m accounts)

/-- Witness for C6 (amended): `max_follows = 2` on a five-account input
processes only the first two accounts. -/
theorem C6_max_follows_truncates_witness :
    follow_bulk exOracle exTso [exA, exB, exA, exB, exA] (some 2) =
      follow_bulk exOracle exTso ([exA, exB, exA, exB, exA].take 2) none ∧
    (follow_bulk exOracle exTso [exA, exB, exA, exB, exA] (some 2)).1.length
      ≤ 2 :=
  C6_max_follows_truncates exOracle exTso [exA, exB, exA, exB, exA] 2
    (by decide)

/-- Counterexample to C7: the missing-identifier record that `follow_bulk`
appends is built without a `timestamp` key, so not every result of the
batch carries a timestamp. -/
theorem C7_counterexample_no_timestamp :
    (follow_bulk exOracle exTso [exNoDid] none).1 =
      [{ did := none, handle := some "carol.bsky.social", success := false,
         error := some "No DID provided", timestamp := none }] ∧
    ¬ (∀ r ∈ (follow_bulk exOracle exTso [exNoDid] none).1,
        r.timestamp.isSome = true) := by
  refine ⟨rfl, by decide⟩

/-- C7 (amended): every result produced by an actual follow attempt
(`follow_user`) carries a timestamp; the only results without a
timestamp are the missing-identifier records, which carry no `did`, are
unsuccessful, and have error "No DID provided". -/
theorem C7_timestamps (o : Nat → FollowOutcome) (tso : Nat → String)
    (accounts : List AccountRec) (max_follows : Option Nat) :
    ∀ r ∈ (follow_bulk o tso accounts max_follows).1,
      r.timestamp.isSome = true ∨
        (r.did = none ∧ r.success = false ∧
          r.error = some "No DID provided" ∧ r.timestamp = none) := by
  exact follow_bulk_go_all o tso _
    (fun h => Or.inr (by simp [noDidResult]))
    (fun oc ts d h => Or.inl (by
      cases oc with
      | ok u => rfl
      | exn m =>
        by_cases hA : containsSub "already following" (lowerStr m) = true
        · rw [follow_user_af _ _ _ _ hA]; rfl
        · rw [Bool.not_eq_true] at hA
          by_cases hR : containsSub "rate limit" (lowerStr m) = true
          · rw [follow_user_rl _ _ _ _ hA hR]; rfl
          · rw [Bool.not_eq_true] at hR
            rw [follow_user_gen _ _ _ _ hA hR]; rfl))
    (accountsToProcess accounts max_follows) initBulkState
    (by intro r hr; simp [initBulkState] at hr)

/-- Witness for C7 (amended): applied to the one-account missing-did run. -/
theorem C7_timestamps_witness :
    ({ did := none, handle := some "carol.bsky.social", success := false,
       error := some "No DID provided", timestamp := none } :
        FollowResult).timestamp.isSome = true ∨
      (({ did := none, handle := some "carol.bsky.social", success := false,
          error := some "No DID provided", timestamp := none } :
            FollowResult).did = none ∧
       ({ did := none, handle := some "carol.bsky.social", success := false,
          error := some "No DID provided", timestamp := none } :
            FollowResult).success = false ∧
       ({ did := none, handle := some "carol.bsky.social", success := false,
          error := some "No DID provided", timestamp := none } :
            FollowResult).error = some "No DID provided" ∧
       ({ did := none, handle := some "carol.bsky.social", success := false,
          error := some "No DID provided", timestamp := none } :
            FollowResult).timestamp = none) :=
  C7_timestamps exOracle exTso [exNoDid] none _ (by decide)

/-- C10: a falsy `did` value (absent key or empty string) is treated like
an absent one — `account.get('did') or account.get('DID')` falls through
to the `DID` key; when both are falsy the account is recorded as a
failure with error "No DID provided" and the remote oracle is never
consulted (the loop state's call counter does not advance and the step
holds for every oracle); when `did` is falsy but `DID` is usable, the
attempted identifier is the `DID` value. -/
theorem C10_falsy_did (a : AccountRec) (o : Nat → FollowOutcome)
    (tso : Nat → String) (rest : List AccountRec) (st : BulkState)
    (mf : Option Nat) (b : Option String) :
    (pyOr (some "") b = b ∧ pyOr none b = b) ∧
    (truthy (pyOr a.did a.DID) = false →
      follow_bulk_go o tso (a :: rest) st =
        follow_bulk_go o tso rest
          { st with
              results := st.results ++ [noDidResult (pyOr a.handle a.Handle)],
              failed := st.failed + 1 }) ∧
    (truthy a.did = false → truthy a.DID = true →
      (follow_bulk o tso [a] mf).1 =
        [follow_user (o 0) (tso 0) (a.DID.getD "")
          (pyOr a.handle a.Handle)]) := by
  refine ⟨⟨rfl, rfl⟩, fun h => go_cons_nodid o tso a rest st h, ?_⟩
  intro h1 h2
  have hap : accountsToProcess [a] mf = [a] := by
    cases mf with
    | none => rfl
    | some m =>
      cases m with
      | zero => rfl
      | succ k => simp [accountsToProcess]
  have hpy : pyOr a.did a.DID = a.DID := by simp [pyOr, h1]
  have hd : truthy (pyOr a.did a.DID) = true := by rw [hpy]; exact h2
  show (follow_bulk_go o tso (accountsToProcess [a] mf)
    initBulkState).results = _
  rw [hap]
  cases ho : o 0 with
  | ok u =>
    rw [go_cons_ok o tso a [] initBulkState u hd ho]
    simp [follow_bulk_go, hpy, initBulkState]
  | exn msg =>
    by_cases hA : containsSub "already following" (lowerStr msg) = true
    · rw [go_cons_af o tso a [] initBulkState msg hd ho hA]
      simp [follow_bulk_go, hpy, initBulkState]
    · rw [Bool.not_eq_true] at hA
      by_cases hR : containsSub "rate limit" (lowerStr msg) = true
      · rw [go_cons_rl o tso a [] initBulkState msg hd ho hA hR]
        simp [hpy, initBulkState]
      · rw [Bool.not_eq_true] at hR
        rw [go_cons_gen o tso a [] initBulkState msg hd ho hA hR]
        simp [follow_bulk_go, hpy, initBulkState]

/-- Witness for C10: an account whose `did` key holds the empty string
falls back to its `DID` key and that identifier is the one attempted. -/
theorem C10_falsy_did_witness :
    (follow_bulk exOracle exTso [exDDID] none).1 =
      [follow_user (exOracle 0) (exTso 0) (exDDID.DID.getD "")
        (pyOr exDDID.handle exDDID.Handle)] :=
  (C10_falsy_did exDDID exOracle exTso [] initBulkState none none).2.2
    (by decide) (by decide)

/-!
## Scraper: pagination lemmas
-/

/-- Characterization of the `scrape_keyword` loop: from page `page` with
`fuel` remaining pages, the loop issues calls `page, page+1, …` up to
some final count bounded by `page + fuel`, and the accounts collected
are exactly the concatenated contributions of the consulted pages. -/
theorem scrapeAux_spec (o : Nat → SearchResp) (kw : String)
    (tso : Nat → Nat → String) :
    ∀ (fuel page : Nat) (acc : List Account),
      page ≤ (scrapeAux o kw tso fuel page acc).2 ∧
      (scrapeAux o kw tso fuel page acc).2 ≤ page + fuel ∧
      (scrapeAux o kw tso fuel page acc).1 =
        acc ++ ((List.range' page ((scrapeAux o kw tso fuel page acc).2 - page)).map
          (pageContribution o kw tso)).flatten := by
  intro fuel
  induction fuel with
  | zero =>
    intro page acc
    refine ⟨Nat.le_refl _, by simp [scrapeAux], ?_⟩
    simp [scrapeAux]
  | succ n ih =>
    intro page acc
    cases hop : o page with
    | fail =>
      simp only [scrapeAux, hop]
      refine ⟨Nat.le_succ _, by omega, ?_⟩
      simp [pageContribution, hop, Nat.add_sub_cancel_left, List.range'_one]
    | page actors cursor =>
      by_cases hemp : actors.isEmpty = true
      · have hnil : actors = [] := List.isEmpty_iff.mp hemp
        subst hnil
        simp only [scrapeAux, hop, List.isEmpty_nil, if_true]
        refine ⟨Nat.le_succ _, by omega, ?_⟩
        simp [pageContribution, hop, Nat.add_sub_cancel_left, List.range'_one]
      · rw [Bool.not_eq_true] at hemp
        by_cases hcur : truthy cursor = true
        · have hred : scrapeAux o kw tso (n + 1) page acc =
              scrapeAux o kw tso n (page + 1)
                (acc ++ actors.mapIdx (fun j a => mkAccount kw (tso page j) a)) := by
            simp [scrapeAux, hop, hemp, hcur]
          rw [hred]
          obtain ⟨ih1, ih2, ih3⟩ := ih (page + 1)
            (acc ++ actors.mapIdx (fun j a => mkAccount kw (tso page j) a))
          refine ⟨by omega, by omega, ?_⟩
          rw [ih3]
          have hsplit : (scrapeAux o kw tso n (page + 1)
              (acc ++ actors.mapIdx (fun j a => mkAccount kw (tso page j) a))).2 - page =
              ((scrapeAux o kw tso n (page + 1)
                (acc ++ actors.mapIdx (fun j a => mkAccount kw (tso page j) a))).2 -
                (page + 1)) + 1 := by omega
          rw [hsplit, List.range'_succ]
          simp [pageContribution, hop, List.append_assoc]
        · rw [Bool.not_eq_true] at hcur
          have hred : scrapeAux o kw tso (n + 1) page acc =
              (acc ++ actors.mapIdx (fun j a => mkAccount kw (tso page j) a),
                page + 1) := by
            simp [scrapeAux, hop, hemp, hcur]
          rw [hred]
          refine ⟨Nat.le_succ _, by omega, ?_⟩
          simp [pageContribution, hop, Nat.add_sub_cancel_left, List.range'_one]

/-- C9: for every behaviour of the remote search capability,
`scrape_keyword` terminates having issued at most `max_pages` remote
calls, and its output is exactly the concatenation of the contributions
of the consulted pages — so its accounts are drawn from at most
`max_pages` pages. -/
theorem C9_scrape_page_cap (o : Nat → SearchResp) (max_pages : Nat)
    (kw : String) (tso : Nat → Nat → String) :
    scrape_calls o max_pages kw tso ≤ max_pages ∧
    scrape_keyword o max_pages kw tso =
      ((List.range (scrape_calls o max_pages kw tso)).map
        (pageContribution o kw tso)).flatten := by
  obtain ⟨h1, h2, h3⟩ := scrapeAux_spec o kw tso max_pages 0 []
  refine ⟨by simpa using h2, ?_⟩
  show (scrapeAux o kw tso max_pages 0 []).1 = _
  rw [List.range_eq_range']
  simpa using h3

/-- The function `scrape_keyword` returns no accounts when the very first remote call
raises. -/
theorem scrape_keyword_fail_first (o : Nat → SearchResp) (mp : Nat)
    (kw : String) (tso : Nat → Nat → String)
    (hf : o 0 = SearchResp.fail) : scrape_keyword o mp kw tso = [] := by
  cases mp with
  | zero => rfl
  | succ n => simp [scrape_keyword, scrapeAux, hf]

/-- C8: a raising remote search call stops the keyword's pagination loop
immediately with exactly the pages already collected (no retry); a
keyword whose first page errors yields zero accounts; and
`scrape_multiple_keywords` still processes all subsequent keywords after
such a keyword. -/
theorem C8_search_error_contained (o : Nat → SearchResp) (kw : String)
    (tso : Nat → Nat → String) (fuel page : Nat) (acc : List Account)
    (mp : Nat) (O : Nat → Nat → SearchResp) (TS : Nat → Nat → Nat → String)
    (k : String) (ks : List String) :
    (o page = SearchResp.fail →
      scrapeAux o kw tso (fuel + 1) page acc = (acc, page + 1)) ∧
    (o 0 = SearchResp.fail → scrape_keyword o mp kw tso = []) ∧
    (O 0 0 = SearchResp.fail →
      scrape_multiple_keywords O TS mp (k :: ks) =
        scrape_multiple_go O TS mp 1 ks) := by
  refine ⟨fun hf => by simp [scrapeAux, hf],
    fun hf => scrape_keyword_fail_first o mp kw tso hf, fun hf => ?_⟩
  show scrape_keyword (O 0) mp k (TS 0) ++ scrape_multiple_go O TS mp 1 ks = _
  rw [scrape_keyword_fail_first (O 0) mp k (TS 0) hf]
  simp

/-- Concrete search oracles for closed-form runs. -/
def exFailSearch : Nat → SearchResp := fun _ => SearchResp.fail

def exSearchTso : Nat → Nat → String := fun _ _ => "2026-01-01T00:00:00"

def exFailSearchMulti : Nat → Nat → SearchResp := fun _ _ => SearchResp.fail

def exSearchTsoMulti : Nat → Nat → Nat → String :=
  fun _ _ _ => "2026-01-01T00:00:00"

/-- Witness for C8: with a first-page-raising oracle, the keyword yields
no accounts, the loop returns immediately, and later keywords are still
processed. -/
theorem C8_search_error_contained_witness :
    scrapeAux exFailSearch "ai" exSearchTso 5 0 [] = ([], 1) ∧
    scrape_keyword exFailSearch 5 "ai" exSearchTso = [] ∧
    scrape_multiple_keywords exFailSearchMulti exSearchTsoMulti 5
      ["ai", "tech"] =
      scrape_multiple_go exFailSearchMulti exSearchTsoMulti 5 1 ["tech"] :=
  ⟨(C8_search_error_contained exFailSearch "ai" exSearchTso 4 0 [] 5
      exFailSearchMulti exSearchTsoMulti "ai" ["tech"]).1 rfl,
   (C8_search_error_contained exFailSearch "ai" exSearchTso 4 0 [] 5
      exFailSearchMulti exSearchTsoMulti "ai" ["tech"]).2.1 rfl,
   (C8_search_error_contained exFailSearch "ai" exSearchTso 4 0 [] 5
      exFailSearchMulti exSearchTsoMulti "ai" ["tech"]).2.2 rfl⟩

/-!
## Deduplication lemmas
-/

/-- Rendition of the claim's wording: keep exactly those accounts whose
identifier is neither in `P` (the scraper's prior seen-set) nor in `S`
(the supplied identifier list), and that are the first occurrence of
their identifier within the input (`prior` holds the input elements
before the current one). -/
def dedupSpecAux (P : Finset String) (S : List String) :
    List Account → List Account → List Account
  | _, [] => []
  | prior, a :: rest =>
    (if a.did ∉ P ∧ a.did ∉ S ∧ (∀ b ∈ prior, b.did ≠ a.did) then [a]
      else []) ++ dedupSpecAux P S (prior ++ [a]) rest

/-- The claim's description of `deduplicate`, over the whole input. -/
def dedupSpec (P : Finset String) (S : List String) (X : List Account) :
    List Account :=
  dedupSpecAux P S [] X

theorem dedupGo_spec (P : Finset String) (S : List String) :
    ∀ (X prior : List Account),
      (dedupGo X (P ∪ S.toFinset ∪ (prior.map Account.did).toFinset)).1 =
        dedupSpecAux P S prior X := by
  intro X
  induction X with
  | nil => intro prior; simp [dedupGo, dedupSpecAux]
  | cons a rest ih =>
    intro prior
    by_cases hmem : a.did ∈ P ∪ S.toFinset ∪ (prior.map Account.did).toFinset
    · have hcond : ¬ (a.did ∉ P ∧ a.did ∉ S ∧ ∀ b ∈ prior, b.did ≠ a.did) := by
        simp only [Finset.mem_union, List.mem_toFinset, List.mem_map] at hmem
        rintro ⟨h1, h2, h3⟩
        rcases hmem with (hm | hm) | hm
        · exact h1 hm
        · exact h2 hm
        · obtain ⟨b, hb, he⟩ := hm
          exact h3 b hb he
      have hskip : (dedupGo (a :: rest)
          (P ∪ S.toFinset ∪ (prior.map Account.did).toFinset)).1 =
          (dedupGo rest
            (P ∪ S.toFinset ∪ (prior.map Account.did).toFinset)).1 := by
        simp only [dedupGo]
        rw [if_pos hmem]
      have hseed : P ∪ S.toFinset ∪ ((prior ++ [a]).map Account.did).toFinset =
          P ∪ S.toFinset ∪ (prior.map Account.did).toFinset := by
        ext x
        simp only [Finset.mem_union, List.mem_toFinset, List.map_append,
          List.mem_append, List.map_cons, List.map_nil, List.mem_cons,
          List.not_mem_nil, or_false]
        constructor
        · rintro ((h | h) | (h | rfl))
          · exact Or.inl (Or.inl h)
          · exact Or.inl (Or.inr h)
          · exact Or.inr h
          · simpa only [Finset.mem_union, List.mem_toFinset] using hmem
        · rintro ((h | h) | h)
          · exact Or.inl (Or.inl h)
          · exact Or.inl (Or.inr h)
          · exact Or.inr (Or.inl h)
      have hspec : dedupSpecAux P S prior (a :: rest) =
          dedupSpecAux P S (prior ++ [a]) rest := by
        simp only [dedupSpecAux]
        rw [if_neg hcond]
        simp
      rw [hskip, hspec, ← ih (prior ++ [a]), hseed]
    · have hcond : a.did ∉ P ∧ a.did ∉ S ∧ ∀ b ∈ prior, b.did ≠ a.did := by
        simp only [Finset.mem_union, List.mem_toFinset, List.mem_map,
          not_or, not_exists] at hmem
        obtain ⟨⟨h1, h2⟩, h3⟩ := hmem
        refine ⟨h1, h2, fun b hb he => ?_⟩
        exact (h3 b) ⟨hb, he⟩
      have hkeep : (dedupGo (a :: rest)
          (P ∪ S.toFinset ∪ (prior.map Account.did).toFinset)).1 =
          a :: (dedupGo rest (insert a.did
            (P ∪ S.toFinset ∪ (prior.map Account.did).toFinset))).1 := by
        simp only [dedupGo]
        rw [if_neg hmem]
      have hseed : insert a.did
          (P ∪ S.toFinset ∪ (prior.map Account.did).toFinset) =
          P ∪ S.toFinset ∪ ((prior ++ [a]).map Account.did).toFinset := by
        ext x
        simp only [Finset.mem_insert, Finset.mem_union, List.mem_toFinset,
          List.map_append, List.mem_append, List.map_cons, List.map_nil,
          List.mem_cons, List.not_mem_nil, or_false]
        constructor
        · rintro (rfl | ((h | h) | h))
          · exact Or.inr (Or.inr rfl)
          · exact Or.inl (Or.inl h)
          · exact Or.inl (Or.inr h)
          · exact Or.inr (Or.inl h)
        · rintro ((h | h) | (h | rfl))
          · exact Or.inr (Or.inl (Or.inl h))
          · exact Or.inr (Or.inl (Or.inr h))
          · exact Or.inr (Or.inr h)
          · exact Or.inl rfl
      have hspec : dedupSpecAux P S prior (a :: rest) =
          a :: dedupSpecAux P S (prior ++ [a]) rest := by
        simp only [dedupSpecAux]
        rw [if_pos hcond]
        simp
      rw [hkeep, hseed, ih (prior ++ [a]), hspec]

/-- C2: `deduplicate` with supplied list `S` on a scraper whose internal
seen-set is `P` keeps, in input order, exactly the accounts whose
identifier is neither in `P` nor in `S` and that are the first occurrence
of their identifier within the input; every account with identifier in
`S` is removed, and so are all but the first occurrence of any duplicated
identifier. -/
theorem C2_deduplicate_filters (X : List Account) (S : List String)
    (P : Finset String) :
    (deduplicate X (some S) P).1 = dedupSpec P S X := by
  cases S with
  | nil =>
    have h := dedupGo_spec P [] X []
    simpa [deduplicate, dedupSeed, dedupSpec] using h
  | cons s0 S1 =>
    have h := dedupGo_spec P (s0 :: S1) X []
    simpa [deduplicate, dedupSeed, dedupSpec] using h

/-- No surviving account's identifier was in the initial seen-set. -/
theorem dedupGo_not_seen :
    ∀ (X : List Account) (s : Finset String),
      ∀ a ∈ (dedupGo X s).1, a.did ∉ s := by
  intro X
  induction X with
  | nil => intro s a ha; simp [dedupGo] at ha
  | cons x rest ih =>
    intro s a ha
    by_cases hm : x.did ∈ s
    · rw [show (dedupGo (x :: rest) s).1 = (dedupGo rest s).1 by
        simp only [dedupGo]; rw [if_pos hm]] at ha
      exact ih s a ha
    · rw [show (dedupGo (x :: rest) s).1 =
          x :: (dedupGo rest (insert x.did s)).1 by
        simp only [dedupGo]; rw [if_neg hm]] at ha
      rcases List.mem_cons.mp ha with rfl | ha2
      · exact hm
      · intro hin
        exact ih (insert x.did s) a ha2 (Finset.mem_insert_of_mem hin)

/-- Surviving accounts have pairwise distinct identifiers. -/
theorem dedupGo_nodup :
    ∀ (X : List Account) (s : Finset String),
      ((dedupGo X s).1.map Account.did).Nodup := by
  intro X
  induction X with
  | nil => intro s; simp [dedupGo]
  | cons x rest ih =>
    intro s
    by_cases hm : x.did ∈ s
    · rw [show (dedupGo (x :: rest) s).1 = (dedupGo rest s).1 by
        simp only [dedupGo]; rw [if_pos hm]]
      exact ih s
    · rw [show (dedupGo (x :: rest) s).1 =
          x :: (dedupGo rest (insert x.did s)).1 by
        simp only [dedupGo]; rw [if_neg hm]]
      rw [List.map_cons, List.nodup_cons]
      refine ⟨?_, ih (insert x.did s)⟩
      intro hmm
      obtain ⟨a, ha, he⟩ := List.mem_map.mp hmm
      have hnot := dedupGo_not_seen rest (insert x.did s) a ha
      rw [he] at hnot
      exact hnot (Finset.mem_insert_self x.did s)

/-- A list of accounts with pairwise distinct identifiers, none already
seen, passes through the deduplication loop unchanged. -/
theorem dedupGo_fixed :
    ∀ (l : List Account) (s : Finset String),
      (l.map Account.did).Nodup → (∀ a ∈ l, a.did ∉ s) →
      (dedupGo l s).1 = l := by
  intro l
  induction l with
  | nil => intro s _ _; simp [dedupGo]
  | cons x rest ih =>
    intro s hnd hnot
    have hm : x.did ∉ s := hnot x (List.mem_cons_self x rest)
    rw [show (dedupGo (x :: rest) s).1 =
        x :: (dedupGo rest (insert x.did s)).1 by
      simp only [dedupGo]; rw [if_neg hm]]
    rw [List.map_cons, List.nodup_cons] at hnd
    congr 1
    refine ih (insert x.did s) hnd.2 ?_
    intro a ha hin
    rcases Finset.mem_insert.mp hin with he | hin2
    · exact hnd.1 (List.mem_map.mpr ⟨a, ha, he⟩)
    · exact hnot a (List.mem_cons_of_mem x ha) hin2

/-- Concrete account fixture. -/
def exAcct : Account :=
  { did := "did:plc:alice", handle := "alice.bsky.social",
    displayName := "Alice", description := "N/A", avatar := "",
    followersCount := 0,
    profileUrl := "https://bsky.app/profile/alice.bsky.social",
    keyword := "ai", scrapedAt := "2026-01-01T00:00:00" }

/-- Counterexample to C5 as literally executed on one scraper instance:
`deduplicate` records every survivor's identifier in the instance's
seen-set, so a second call on the same instance (threading the updated
seen-set) removes every survivor — `deduplicate(deduplicate(X))` is `[]`,
not `deduplicate(X)`, already for a one-account input on a fresh
scraper. -/
theorem C5_counterexample_stateful :
    (deduplicate [exAcct] none ∅).1 = [exAcct] ∧
    (deduplicate ((deduplicate [exAcct] none ∅).1) none
      ((deduplicate [exAcct] none ∅).2)).1 = [] ∧
    ¬ ((deduplicate ((deduplicate [exAcct] none ∅).1) none
        ((deduplicate [exAcct] none ∅).2)).1 =
       (deduplicate [exAcct] none ∅).1) := by
  refine ⟨by decide, by decide, by decide⟩

/-- C5 (amended): `deduplicate` is idempotent as a function of its input
when the second pass starts from the same seen-set as the first (e.g. on
a fresh scraper instance): re-running it on its own output with the same
`seen_dids` argument and the same initial seen-set removes nothing. On a
single instance the first call mutates the seen-set, so the literal
second call removes every survivor instead. -/
theorem C5_dedup_idempotent_same_seed (X : List Account)
    (seen_dids : Option (List String)) (s : Finset String) :
    (deduplicate ((deduplicate X seen_dids s).1) seen_dids s).1 =
      (deduplicate X seen_dids s).1 := by
  show (dedupGo ((deduplicate X seen_dids s).1)
    (dedupSeed seen_dids s)).1 = _
  refine dedupGo_fixed _ _ ?_ ?_
  · exact dedupGo_nodup X (dedupSeed seen_dids s)
  · exact dedupGo_not_seen X (dedupSeed seen_dids s)
